import Mathlib

/-!
Shallow embedding of the merge-conflict resolution engine of this repository
(src/resolve_smart.py, src/fix_preexisting.py, src/resolve_09.py).

Text is modelled as `List Char`.  The Python regular expressions used by the
three drivers are line-and-lookahead structured, so they are embedded as
explicit recursive matchers with exactly the backtracking behaviour of the
Python `re` engine on these patterns (lazy interior groups guarded by
negative lookaheads; `re.sub` scans left to right and replaces
non-overlapping leftmost matches).  Recursive scans take an explicit fuel
argument; every caller passes the length of the scanned list, which is an
upper bound on the number of recursive steps, so the fuel never runs out.
-/

namespace Pulse

/-- Python `str.strip` whitespace set (ASCII part). -/
def isPyWs (c : Char) : Bool :=
  c = ' ' || c = '\t' || c = '\n' || c = '\r' || c = '\x0b' || c = '\x0c'

/-- Python `str.strip`: drop whitespace from both ends. -/
def strip (l : List Char) : List Char :=
  ((l.dropWhile isPyWs).reverse.dropWhile isPyWs).reverse

/-- Python `str.lower` restricted to ASCII letters, as `Char.toLower`. -/
def lowerL (l : List Char) : List Char := l.map Char.toLower

/-- Python substring test `pat in l`. -/
def containsSub (pat : List Char) : List Char → Bool
  | [] => pat.isPrefixOf []
  | c :: tl => pat.isPrefixOf (c :: tl) || containsSub pat tl

/-- Python `str.split('\n')`: always returns at least one piece. -/
def splitNl : List Char → List (List Char)
  | [] => [[]]
  | '\n' :: tl => [] :: splitNl tl
  | c :: tl =>
    match splitNl tl with
    | [] => [[c]]
    | h :: t => (c :: h) :: t

/-- Python `'\n'.join(pieces)`. -/
def joinNl : List (List Char) → List Char
  | [] => []
  | [x] => x
  | x :: xs => x ++ '\n' :: joinNl xs

/-- Python `str.rstrip('\n')`. -/
def rstripNl (l : List Char) : List Char :=
  (l.reverse.dropWhile (fun c => c = '\n')).reverse

/-- Python `list.insert i x`: insert before index `i` (append when past the end). -/
def insertAt {α : Type} : Nat → α → List α → List α
  | 0, x, l => x :: l
  | _ + 1, x, [] => [x]
  | n + 1, x, c :: tl => c :: insertAt n x tl

/-- Index of the first occurrence of `pat` as a substring (Python `re.search` on a
literal pattern). -/
def findSubIdx (pat : List Char) : List Char → Option Nat
  | [] => if pat.isPrefixOf ([] : List Char) then some 0 else none
  | c :: tl =>
    if pat.isPrefixOf (c :: tl) then some 0
    else (findSubIdx pat tl).map (· + 1)

/-- Python `str.replace old new` for a nonempty `old`, fuelled. -/
def replaceAllF (old new : List Char) : Nat → List Char → List Char
  | 0, l => l
  | _ + 1, [] => []
  | fuel + 1, c :: tl =>
    if old.isPrefixOf (c :: tl) then new ++ replaceAllF old new fuel ((c :: tl).drop old.length)
    else c :: replaceAllF old new fuel tl

/-- Python `str.replace old new`, including the empty-`old` edge case
(`"ab".replace("", "x") = "xaxbx"`). -/
def replaceAll (old new l : List Char) : List Char :=
  if old.isEmpty then new ++ l.foldr (fun c acc => c :: (new ++ acc)) []
  else replaceAllF old new l.length l

/-- The three 7-character sentinels. -/
def openSent : List Char := List.replicate 7 '<'

/-- Closing sentinel. -/
def closeSent : List Char := List.replicate 7 '>'

/-- Separator sentinel. -/
def sepSent : List Char := List.replicate 7 '='

/-- Regex fragment `[^\n]*\n`: skip to just past the first newline; `none` when
no newline remains. -/
def afterLine : List Char → Option (List Char)
  | [] => none
  | c :: tl => if c = '\n' then some tl else afterLine tl

/-- Regex fragment `<{7} [^\n]*\n` (opening marker line: sentinel, mandatory
space, optional label).  Returns the text after the line. -/
def parseOpen (l : List Char) : Option (List Char) :=
  if (openSent ++ [' ']).isPrefixOf l then afterLine (l.drop 8) else none

/-- Separator of resolve_smart: `={7}\n` exactly (no label allowed). -/
def parseSepExact (l : List Char) : Option (List Char) :=
  if sepSent.isPrefixOf l then
    match l.drop 7 with
    | c :: tl => if c = '\n' then some tl else none
    | [] => none
  else none

/-- Separator of fix_preexisting / resolve_09: `={7}[^\n]*\n`. -/
def parseSepLine (l : List Char) : Option (List Char) :=
  if sepSent.isPrefixOf l then afterLine (l.drop 7) else none

/-- Regex fragment `>{7} [^\n]*\n` (closing marker line).  Returns the text
after the whole match. -/
def parseClose (l : List Char) : Option (List Char) :=
  if (closeSent ++ [' ']).isPrefixOf l then afterLine (l.drop 8) else none

/-- Negative lookaheads `(?!<{7})(?!>{7})(?!={7})` guarding the interior
groups of the well-formed pattern. -/
def noSentinelHead (l : List Char) : Bool :=
  !(openSent.isPrefixOf l) && !(closeSent.isPrefixOf l) && !(sepSent.isPrefixOf l)

/-- Lazy group-2 interior `((?:(?!<{7})(?!>{7})(?!={7}).)*?)` followed by the
closing line: at each position first try the closing line, else consume one
guarded character.  Returns the interior and the text after the match. -/
def parseB : List Char → Option (List Char × List Char)
  | [] => none
  | c :: tl =>
    match parseClose (c :: tl) with
    | some rest => some ([], rest)
    | none =>
      if noSentinelHead (c :: tl) then
        (parseB tl).map (fun p => (c :: p.1, p.2))
      else none

/-- Lazy group-1 interior followed by separator line, group-2 interior and
closing line.  When the separator line matches but the rest fails, the regex
cannot backtrack past the separator (the `(?!={7})` guard blocks the interior
from consuming it), so the whole attempt fails, exactly as in Python. -/
def parseA (sep : List Char → Option (List Char)) : List Char → Option (List Char × List Char × List Char)
  | [] => none
  | c :: tl =>
    match sep (c :: tl) with
    | some afterSep =>
      match parseB afterSep with
      | some (b, rest) => some ([], b, rest)
      | none => none
    | none =>
      if noSentinelHead (c :: tl) then
        (parseA sep tl).map (fun p => (c :: p.1, p.2))
      else none

/-- Attempt the full well-formed conflict pattern at the head of `l`:
returns (ours interior, theirs interior, text after the match). -/
def tryConflict (sep : List Char → Option (List Char)) (l : List Char) :
    Option (List Char × List Char × List Char) :=
  match parseOpen l with
  | some afterOpen => parseA sep afterOpen
  | none => none

/-- Lazy interior of the malformed pattern `((?:(?!<{7})(?!>{7}).)*?)` followed
by the closing line (no separator guard, pattern2 of fix_preexisting and
resolve_09). -/
def parseM : List Char → Option (List Char × List Char)
  | [] => none
  | c :: tl =>
    match parseClose (c :: tl) with
    | some rest => some ([], rest)
    | none =>
      if !(openSent.isPrefixOf (c :: tl)) && !(closeSent.isPrefixOf (c :: tl)) then
        (parseM tl).map (fun p => (c :: p.1, p.2))
      else none

/-- Attempt the malformed pattern at the head of `l`. -/
def tryMalformed (l : List Char) : Option (List Char × List Char) :=
  match parseOpen l with
  | some afterOpen => parseM afterOpen
  | none => none

/-- One `re.sub` pass for a well-formed conflict pattern: scan left to right,
replace each non-overlapping leftmost match by `res ours theirs`. -/
def scanConflicts (sep : List Char → Option (List Char))
    (res : List Char → List Char → List Char) : Nat → List Char → List Char
  | 0, l => l
  | _ + 1, [] => []
  | fuel + 1, c :: tl =>
    match tryConflict sep (c :: tl) with
    | some (a, b, rest) => res a b ++ scanConflicts sep res fuel rest
    | none => c :: scanConflicts sep res fuel tl

/-- One `re.sub` pass for the malformed pattern with replacement `\1`. -/
def scanMalformed : Nat → List Char → List Char
  | 0, l => l
  | _ + 1, [] => []
  | fuel + 1, c :: tl =>
    match tryMalformed (c :: tl) with
    | some (a, rest) => a ++ scanMalformed fuel rest
    | none => c :: scanMalformed fuel tl

/-- Python `content.count('<<<<<<<')`: non-overlapping occurrences, fuelled. -/
def countOpenF : Nat → List Char → Nat
  | 0, _ => 0
  | _ + 1, [] => 0
  | fuel + 1, c :: tl =>
    if openSent.isPrefixOf (c :: tl) then countOpenF fuel ((c :: tl).drop 7) + 1
    else countOpenF fuel tl

/-- Python `content.count('<<<<<<<')`. -/
def countOpen (l : List Char) : Nat := countOpenF l.length l

/-- Feature vector of `analyze_side` in resolve_smart.py.  The `validation`
counter is initialised in the source dictionary but never incremented. -/
structure SideFeatures where
  validation : Nat
  security : Nat
  bounds : Nat
  errh : Nat
  logctx : Nat
  lineCount : Nat
  deriving Repr, DecidableEq

/-- Security keyword set of `analyze_side`. -/
def secKws : List (List Char) :=
  ["sanitize", "validate", "limit", "cap", "bound", "max_", "maximum", "truncat"].map String.toList

/-- Bounds-check keyword set of `analyze_side` (the source tests these as
literal substrings, not as regular expressions). -/
def bndKws : List (List Char) :=
  ["if.*<.*0", "if.*>.*max", "if len(", "if.*<=.*0"].map String.toList

/-- Error-handling keyword set of `analyze_side`. -/
def errKws : List (List Char) :=
  ["err != nil", "error", "fmt.errorf", "return.*err"].map String.toList

/-- Per-line tally step of `analyze_side`. -/
def analyzeLine (acc : SideFeatures) (line : List Char) : SideFeatures :=
  let l := lowerL (strip line)
  let acc := if secKws.any (fun k => containsSub k l) then
    { acc with security := acc.security + 1 } else acc
  let acc := if bndKws.any (fun k => containsSub k l) then
    { acc with bounds := acc.bounds + 1 } else acc
  let acc := if errKws.any (fun k => containsSub k l) then
    { acc with errh := acc.errh + 1 } else acc
  let acc := if containsSub (String.toList ".str(") l || containsSub (String.toList ".int(") l ||
      containsSub (String.toList ".bool(") l then
    { acc with logctx := acc.logctx + 1 } else acc
  if containsSub (String.toList "closeconn") l || containsSub (String.toList "decodepayload") l then
    { acc with errh := acc.errh + 2 } else acc

/-- `analyze_side` of resolve_smart.py. -/
def analyzeSide (content : List Char) : SideFeatures :=
  let start : SideFeatures :=
    { validation := 0, security := 0, bounds := 0, errh := 0, logctx := 0,
      lineCount := if strip content = [] then 0 else (splitNl (strip content)).length }
  (splitNl content).foldl analyzeLine start

/-- `_graft_logging` of resolve_smart.py: returns HEAD unchanged. -/
def graftLogging (head _branch : List Char) : List Char := head

/-- `resolve_conflict` of resolve_smart.py.  The Python comparison
`lines_h > lines_b * 1.5` on nonnegative integers is exactly
`2 * lines_h > 3 * lines_b` (integer-valued floats times 1.5 are exact). -/
def resolveConflictSmart (head branch : List Char) : List Char :=
  if strip head = [] then branch
  else if strip branch = [] then head
  else
    let hi := analyzeSide head
    let bi := analyzeSide branch
    if bi.security + bi.bounds > hi.security + hi.bounds + 1 then
      -- both arms of the inner conditional in the source return the branch side
      if hi.errh > bi.errh + 2 then branch else branch
    else if hi.errh > bi.errh then
      if bi.logctx > hi.logctx then graftLogging head branch else head
    else if 2 * hi.lineCount > 3 * bi.lineCount then head
    else if 2 * bi.lineCount > 3 * hi.lineCount then branch
    else branch

/-- `pick_branch` of fix_preexisting.py. -/
def pickBranch (head branch : List Char) : List Char :=
  if strip branch = [] then head
  else if strip head = [] then branch
  else branch

/-- Field-kind alternation `(?:Str|Int|Bool|Float64|Dur|Time|Strs)` of
resolve_09.py, in source order. -/
def fieldKws : List (List Char) :=
  ["Str", "Int", "Bool", "Float64", "Dur", "Time", "Strs"].map String.toList

/-- Regex fragment `\s*`: skip whitespace. -/
def dropWs (l : List Char) : List Char := l.dropWhile isPyWs

/-- Try each keyword alternative followed by `\s*\(`; on failure backtrack to
the next alternative, as the regex engine does.  Returns the text after `(`. -/
def tryKws : List (List Char) → List Char → Option (List Char)
  | [], _ => none
  | kw :: kws, l =>
    if kw.isPrefixOf l then
      match dropWs (l.drop kw.length) with
      | '(' :: rest => some rest
      | _ => tryKws kws l
    else tryKws kws l

/-- Regex fragment `[^)]*\)`: skip to just past the first `)`. -/
def closeParen : List Char → Option (List Char)
  | [] => none
  | ')' :: tl => some tl
  | _ :: tl => closeParen tl

/-- Attempt the full field pattern `\.\s*(?:Str|...)\s*\([^)]*\)` at the head
of the text; returns the text after the match. -/
def tryFieldAt : List Char → Option (List Char)
  | '.' :: tl => (tryKws fieldKws (dropWs tl)).bind closeParen
  | _ => none

/-- Fuelled scan of `re.findall` for the field pattern. -/
def extractFieldsF : Nat → List Char → List (List Char)
  | 0, _ => []
  | _ + 1, [] => []
  | fuel + 1, c :: tl =>
    match tryFieldAt (c :: tl) with
    | some rest => (c :: tl).take ((c :: tl).length - rest.length) :: extractFieldsF fuel rest
    | none => extractFieldsF fuel tl

/-- `extract_full_fields` of resolve_09.py. -/
def extractFullFields (l : List Char) : List (List Char) := extractFieldsF l.length l

/-- Capture group of `\.Msg\("([^"]*)"\)` after the literal `.Msg("`: the
characters up to the first `"`, which must be immediately followed by `)`. -/
def msgTail : List Char → Option (List Char)
  | [] => none
  | '"' :: tl =>
    match tl with
    | ')' :: _ => some []
    | _ => none
  | c :: tl => (msgTail tl).map (fun m => c :: m)

/-- Attempt the message pattern at the head of the text. -/
def tryMsgAt (l : List Char) : Option (List Char) :=
  if (String.toList ".Msg(\"").isPrefixOf l then msgTail (l.drop 6) else none

/-- `get_msg_content` of resolve_09.py (`re.search`: first position where the
whole pattern matches). -/
def getMsg : List Char → Option (List Char)
  | [] => none
  | c :: tl =>
    match tryMsgAt (c :: tl) with
    | some m => some m
    | none => getMsg tl

/-- Branch fields whose trimmed text is not among HEAD's trimmed fields
(the `new_fields` list of `merge_log_line`). -/
def newFields (headLine branchLine : List Char) : List (List Char) :=
  let hset := (extractFullFields headLine).map strip
  (extractFullFields branchLine).filter (fun f => !(hset.contains (strip f)))

/-- The literal text `.Msg("m")` used by the `str.replace` calls. -/
def msgToken (m : List Char) : List Char :=
  String.toList ".Msg(\"" ++ m ++ String.toList "\")"

/-- `merge_log_line` of resolve_09.py. -/
def mergeLogLine (headLine branchLine : List Char) : List Char :=
  let nf := newFields headLine branchLine
  if nf.isEmpty then
    match getMsg branchLine, getMsg headLine with
    | some bm, some hm =>
      if bm ≠ [] ∧ hm ≠ [] ∧ lowerL bm = lowerL hm then
        replaceAll (msgToken hm) (msgToken bm) headLine
      else headLine
    | _, _ => headLine
  else
    match findSubIdx (String.toList ".Msg(") headLine with
    | some i =>
      let result := headLine.take i ++ nf.foldr (fun a b => a ++ b) [] ++ headLine.drop i
      match getMsg branchLine, getMsg result with
      | some bm, some hm =>
        if bm ≠ [] ∧ hm ≠ [] then replaceAll (msgToken hm) (msgToken bm) result
        else result
      | _, _ => result
    | none => headLine

/-- The literal `log.`. -/
def logDot : List Char := String.toList "log."

/-- The literal `.Msg(`. -/
def msgCall : List Char := String.toList ".Msg("

/-- Matching condition on a branch line in the first merge loop of
`resolve_conflict` in resolve_09.py (messages case-insensitively equal or one
a 20-character case-insensitive prefix of the other; empty or absent messages
are falsy). -/
def branchLineMatches (hMsg : Option (List Char)) (b : List Char) : Bool :=
  containsSub msgCall b &&
    (match hMsg, getMsg b with
     | some hm, some bm =>
       !hm.isEmpty && !bm.isEmpty &&
         (lowerL hm == lowerL bm ||
          ((lowerL bm).take 20).isPrefixOf (lowerL hm) ||
          ((lowerL hm).take 20).isPrefixOf (lowerL bm))
     | _, _ => false)

/-- First branch line matching the given HEAD message. -/
def findMatchingBranch (hMsg : Option (List Char)) : List (List Char) → Option (List Char)
  | [] => none
  | b :: bs => if branchLineMatches hMsg b then some b else findMatchingBranch hMsg bs

/-- Per-HEAD-line step of the first merge loop.  In the source every
non-merging branch of the conditional appends the HEAD line unchanged. -/
def mergeHeadLine (branchLines : List (List Char)) (hLine : List Char) : List Char :=
  if containsSub logDot hLine && containsSub msgCall hLine then
    match findMatchingBranch (getMsg hLine) branchLines with
    | some bLine => mergeLogLine hLine bLine
    | none => hLine
  else hLine

/-- Does a trimmed branch line start a field call (second loop condition). -/
def isFieldLineStart (bstr : List Char) : Bool :=
  (String.toList ".Str(").isPrefixOf bstr || (String.toList ".Int(").isPrefixOf bstr ||
    (String.toList ".Bool(").isPrefixOf bstr

/-- Index of the first accumulated line containing `.Msg(`. -/
def findMsgIdx : List (List Char) → Option Nat
  | [] => none
  | r :: rs => if containsSub msgCall r then some 0 else (findMsgIdx rs).map (fun n => n + 1)

/-- Second loop of `resolve_conflict` in resolve_09.py: for every branch field
line not already present as a substring of some accumulated line, insert a
copy before the first `.Msg(` line.  `lastH` is the loop variable `h_line`
leaked from the first loop (the last HEAD line). -/
def insertFieldLines (lastH : List Char) : List (List Char) → List (List Char) → List (List Char)
  | rl, [] => rl
  | rl, b :: bs =>
    let bstr := strip b
    let rl2 :=
      if isFieldLineStart bstr then
        if rl.any (fun r => containsSub bstr r) then rl
        else
          match findMsgIdx rl with
          | some i => insertAt i (replaceAll (strip lastH) bstr lastH) rl
          | none => rl
      else rl
    insertFieldLines lastH rl2 bs

/-- `resolve_conflict` of resolve_09.py. -/
def resolve09Conflict (head branch : List Char) : List Char :=
  if strip head = [] then branch
  else if strip branch = [] then head
  else
    let headLines := splitNl (rstripNl head)
    let branchLines := splitNl (rstripNl branch)
    if headLines.any (fun l => containsSub logDot l) &&
        branchLines.any (fun l => containsSub logDot l) then
      let resultLines := headLines.map (mergeHeadLine branchLines)
      let finalLines := insertFieldLines (headLines.getLastD []) resultLines branchLines
      joinNl finalLines ++ ['\n']
    else head

/-- One `re.sub` pass of resolve_smart.py's conflict pattern (bare separator,
`resolve_conflict` as replacement). -/
def subSmart (l : List Char) : List Char :=
  scanConflicts parseSepExact resolveConflictSmart l.length l

/-- One `re.sub` pass of fix_preexisting.py's conflict pattern (separator line
may carry a label, `pick_branch` as replacement). -/
def subFix (l : List Char) : List Char :=
  scanConflicts parseSepLine pickBranch l.length l

/-- One `re.sub` pass of resolve_09.py's conflict pattern. -/
def sub09 (l : List Char) : List Char :=
  scanConflicts parseSepLine resolve09Conflict l.length l

/-- One `re.sub` pass of the malformed pattern (pattern2, identical in
fix_preexisting.py and resolve_09.py). -/
def subMal (l : List Char) : List Char := scanMalformed l.length l

/-- One loop iteration of `resolve_file` in resolve_smart.py (no malformed
fallback in this driver). -/
def stepSmart (c : List Char) : List Char := subSmart c

/-- One loop iteration of `fix_file` in fix_preexisting.py: the conflict
pattern, then on no change the malformed fallback. -/
def stepFix (c : List Char) : List Char :=
  let nc := subFix c
  if nc = c then subMal c else nc

/-- One loop iteration of `resolve_file` in resolve_09.py. -/
def step09 (c : List Char) : List Char :=
  let nc := sub09 c
  if nc = c then subMal c else nc

/-- The `for iteration in range(max_iterations)` loop shared by all three
drivers: stop early when an iteration produces no textual change.  Returns
the final text and the number of executed loop iterations. -/
def loopWith (step : List Char → List Char) : Nat → List Char → List Char × Nat
  | 0, c => (c, 0)
  | fuel + 1, c =>
    let nc := step c
    if nc = c then (c, 1)
    else
      let r := loopWith step fuel nc
      (r.1, r.2 + 1)

/-- `resolve_file` of resolve_smart.py on in-memory text: final text and
whether all markers were resolved (`max_iterations = 50` in the source). -/
def resolveFileSmartRun (c : List Char) : List Char × Bool :=
  let t := (loopWith stepSmart 50 c).1
  (t, countOpen t == 0)

/-- `fix_file` of fix_preexisting.py on in-memory text (early `True` return
when the text contains no opening sentinel). -/
def fixFileRun (c : List Char) : List Char × Bool :=
  if countOpen c == 0 then (c, true)
  else
    let t := (loopWith stepFix 50 c).1
    (t, countOpen t == 0)

/-- `resolve_file` of resolve_09.py on in-memory text. -/
def r09FileRun (c : List Char) : List Char × Bool :=
  let t := (loopWith step09 50 c).1
  (t, countOpen t == 0)

/-- `main` of fix_preexisting.py over a modelled filesystem: a path that does
not exist is skipped (`os.path.exists` guard) and processing continues;
otherwise the file is fixed and written back.  Returns the success count and
the list of failed paths, in processing order. -/
def fixBatch (fs : String → Option (List Char)) : List String → Nat × List String
  | [] => (0, [])
  | p :: rest =>
    match fs p with
    | none => fixBatch fs rest
    | some c =>
      let r := fixFileRun c
      let r2 := fixBatch (fun q => if q = p then some r.1 else fs q) rest
      if r.2 then (r2.1 + 1, r2.2) else (r2.1, p :: r2.2)

/-- `main` of resolve_smart.py over a modelled filesystem: `resolve_file`
opens each path with no existence check, so a missing path raises an
unhandled exception (modelled as `Except.error` with the offending path),
aborting the batch. -/
def smartBatch (fs : String → Option (List Char)) : List String → Except String (Nat × List String)
  | [] => Except.ok (0, [])
  | p :: rest =>
    match fs p with
    | none => Except.error p
    | some c =>
      let r := resolveFileSmartRun c
      match smartBatch (fun q => if q = p then some r.1 else fs q) rest with
      | Except.error e => Except.error e
      | Except.ok r2 =>
        if r.2 then Except.ok (r2.1 + 1, r2.2) else Except.ok (r2.1, p :: r2.2)

/-- Opening line of a conflict region with an empty label. -/
def nestHead : List Char := String.toList "<<<<<<< \n"

/-- Bare separator line followed by an empty-labelled closing line. -/
def nestTail : List Char := String.toList "=======\n>>>>>>> \n"

/-- Conflict regions nested `k` deep: each resolution pass of resolve_smart.py
resolves exactly the innermost one. -/
def nest : Nat → List Char
  | 0 => []
  | k + 1 => nestHead ++ nest k ++ nestTail

/-- Does the text contain a newline. -/
def hasNl : List Char → Bool
  | [] => false
  | c :: tl => c == '\n' || hasNl tl

/-- Every occurrence of the closing sentinel in the text has no newline at or
after it, i.e. every closing sentinel sits on an unterminated final line.
This is the shape of a file whose conflict region's closing marker line is the
last line and lacks a trailing newline. -/
def noLiveClose : List Char → Bool
  | [] => true
  | c :: tl => (!(closeSent.isPrefixOf (c :: tl)) || !(hasNl (c :: tl))) && noLiveClose tl

/-- Input on which one resolution pass increases the opening-sentinel count
from 1 to 2: the kept interior ends and begins with partial runs of `<` that
fuse with the surrounding text. -/
def c2In : List Char := String.toList "<<<<<<<<<< h\n<<<<z<<<<<<=======\n>>>>>>> b\n<a"

/-- Scenario C input: malformed region without separator. -/
def sc5 : List Char := String.toList "<<<<<<< HEAD\nkeep me\n>>>>>>> branch\n"

/-- Expected Scenario C output. -/
def keepMe : List Char := String.toList "keep me\n"

/-- Conflict region whose three sentinel lines are bare (no space, no label). -/
def t9bare : List Char := String.toList "<<<<<<<\nkeep\n=======\ndrop\n>>>>>>> b\n"

/-- Conflict region whose opening and closing lines carry the mandatory space
but an empty label. -/
def t9spaced : List Char := String.toList "<<<<<<< \nours\n=======\ntheirs\n>>>>>>> \n"

/-- Conflict region with ordinary labels. -/
def t9labeled : List Char := String.toList "<<<<<<< HEAD\nours\n=======\ntheirs\n>>>>>>> branch\n"

/-- Conflict region whose separator line carries trailing text. -/
def t9sepLabel : List Char := String.toList "<<<<<<< H\na\n======= x\nb\n>>>>>>> B\n"

/-- File whose conflict region's closing line is the unterminated last line. -/
def t10eof : List Char := String.toList "int x\n<<<<<<< HEAD\nours\n=======\ntheirs\n>>>>>>> branch"

/-- Scenario B HEAD log line. -/
def scenBH : List Char := String.toList "log.Info().Str(\"a\",\"1\").Msg(\"done\")"

/-- Scenario B branch log line. -/
def scenBB : List Char := String.toList "log.Info().Str(\"a\",\"1\").Str(\"b\",\"2\").Msg(\"Done\")"

/-- Scenario B expected merge result. -/
def scenBM : List Char := String.toList "log.Info().Str(\"a\",\"1\").Str(\"b\",\"2\").Msg(\"Done\")"

/-- HEAD line for the duplicate-field counterexample. -/
def dupH : List Char := String.toList "log.Info().Msg(\"done\")"

/-- Branch line listing the same new field twice. -/
def dupB : List Char := String.toList "log.Info().Str(\"b\",\"2\").Str(\"b\",\"2\").Msg(\"done\")"

/-- HEAD line for the message-replacement counterexample. -/
def c7H : List Char := String.toList "log.Info().Msg(\"alpha\")"

/-- Branch line with a new field and an unrelated message. -/
def c7B : List Char := String.toList "log.Info().Str(\"b\",\"2\").Msg(\"beta\")"

/-- Second concrete instance of unconditional message adoption. -/
def c7H2 : List Char := String.toList "log.Warn().Msg(\"start\")"

/-- Its branch side. -/
def c7B2 : List Char := String.toList "log.Warn().Int(\"n\",3).Msg(\"Stopping now\")"

/-- HEAD line for the no-new-fields witness. -/
def c7WH : List Char := String.toList "log.Info().Msg(\"x\")"

/-- Branch line for the no-new-fields witness. -/
def c7WB : List Char := String.toList "log.Info().Msg(\"y\")"

/-- Security-win witness: HEAD side with an error-handling advantage. -/
def c4H : List Char := String.toList "error\nerror\nerror\n"

/-- Security-win witness: branch side with the higher security score. -/
def c4B : List Char := String.toList "validate\nsanitize\n"

/-- Modelled filesystem with no files. -/
def emptyFs : String → Option (List Char) := fun _ => none

/-- Unfolding equation of `loopWith` at positive fuel. -/
theorem loopWith_succ (step : List Char → List Char) (fuel : Nat) (c : List Char) :
    loopWith step (fuel + 1) c =
      if step c = c then (c, 1)
      else ((loopWith step fuel (step c)).1, (loopWith step fuel (step c)).2 + 1) := rfl

/-- The loop executes at most `fuel` iterations. -/
theorem loopWith_snd_le (step : List Char → List Char) :
    ∀ fuel c, (loopWith step fuel c).2 ≤ fuel := by
  intro fuel
  induction fuel with
  | zero => intro c; exact Nat.le_refl 0
  | succ f ih =>
    intro c
    rw [loopWith_succ]
    by_cases h : step c = c
    · rw [if_pos h]; exact Nat.succ_le_succ (Nat.zero_le f)
    · rw [if_neg h]; exact Nat.succ_le_succ (ih (step c))

/-- An iteration that changes nothing ends the loop at once. -/
theorem loopWith_fix (step : List Char → List Char) (fuel : Nat) (c : List Char)
    (h : step c = c) : loopWith step (fuel + 1) c = (c, 1) := by
  rw [loopWith_succ, if_pos h]

/-- C1, corrected.  For every input text and every driver variant, the
resolution loop halts within 50 iterations (the source constant
`max_iterations = 50`, not the 30 claimed by the specification). -/
theorem C1_theorem (c : List Char) :
    (loopWith stepSmart 50 c).2 ≤ 50 ∧ (loopWith stepFix 50 c).2 ≤ 50 ∧
      (loopWith step09 50 c).2 ≤ 50 :=
  ⟨loopWith_snd_le stepSmart 50 c, loopWith_snd_le stepFix 50 c, loopWith_snd_le step09 50 c⟩

set_option maxRecDepth 100000 in
set_option maxHeartbeats 2000000 in
/-- C1, counterexample.  On conflict regions nested 32 deep the resolve_smart
loop executes 33 iterations, so it does not halt within the 30 iterations the
specification claims. -/
theorem C1_counterexample : ¬ ((loopWith stepSmart 50 (nest 32)).2 ≤ 30) := by decide

/-- C2, amended part.  For every driver variant, if one iteration produces no
textual change the loop terminates immediately (returning after that single
checking iteration). -/
theorem C2_theorem (c : List Char) (fuel : Nat) :
    (stepSmart c = c → loopWith stepSmart (fuel + 1) c = (c, 1)) ∧
      (stepFix c = c → loopWith stepFix (fuel + 1) c = (c, 1)) ∧
      (step09 c = c → loopWith step09 (fuel + 1) c = (c, 1)) :=
  ⟨loopWith_fix stepSmart fuel c, loopWith_fix stepFix fuel c, loopWith_fix step09 fuel c⟩

/-- C2, witness for the amended claim at a marker-free input. -/
theorem C2_witness :
    stepSmart (String.toList "hello()\n") = String.toList "hello()\n" ∧
      loopWith stepSmart 50 (String.toList "hello()\n") = (String.toList "hello()\n", 1) :=
  ⟨by decide, (C2_theorem (String.toList "hello()\n") 49).1 (by decide)⟩

/-- C2, counterexample.  One resolution pass of resolve_smart on `c2In`
raises the opening-sentinel count from 1 to 2, refuting marker monotonicity:
the kept interior ends and begins with partial `<` runs that fuse with the
adjacent text into new sentinels. -/
theorem C2_counterexample : ¬ (countOpen (stepSmart c2In) ≤ countOpen c2In) := by decide

/-- C3, amended.  In all three strategies, when exactly one side is blank the
other side is returned verbatim, before any heuristic; when both sides are
blank the strategies disagree with the claim (see the counterexample), so the
short-circuit is stated for a blank side opposite a non-blank side. -/
theorem C3_theorem (h b : List Char) :
    (strip b = [] → strip h ≠ [] →
      resolveConflictSmart h b = h ∧ pickBranch h b = h ∧ resolve09Conflict h b = h) ∧
      (strip h = [] → strip b ≠ [] →
        resolveConflictSmart h b = b ∧ pickBranch h b = b ∧ resolve09Conflict h b = b) := by
  constructor
  · intro h1 h2
    refine ⟨?_, ?_, ?_⟩ <;> simp [resolveConflictSmart, pickBranch, resolve09Conflict, h1, h2]
  · intro h1 h2
    refine ⟨?_, ?_, ?_⟩ <;> simp [resolveConflictSmart, pickBranch, resolve09Conflict, h1, h2]

/-- C3, witness at a block whose theirs side is blank and ours side is not. -/
theorem C3_witness :
    strip (String.toList "  \n") = [] ∧ strip (String.toList "code()\n") ≠ [] ∧
      resolveConflictSmart (String.toList "code()\n") (String.toList "  \n") =
        String.toList "code()\n" ∧
      pickBranch (String.toList "code()\n") (String.toList "  \n") = String.toList "code()\n" ∧
      resolve09Conflict (String.toList "code()\n") (String.toList "  \n") =
        String.toList "code()\n" := by
  refine ⟨by decide, by decide, ?_⟩
  exact (C3_theorem (String.toList "code()\n") (String.toList "  \n")).1 (by decide) (by decide)

/-- C3, counterexample.  When both sides are blank but differ, resolve_smart
returns the theirs side, so a block with blank theirs-text does not resolve
to ours-text exactly. -/
theorem C3_counterexample :
    strip (String.toList "\n") = [] ∧
      ¬ (resolveConflictSmart (String.toList " \n") (String.toList "\n") =
        String.toList " \n") := by decide

/-- C4, confirmed.  In the score-weighted strategy, whenever both sides are
non-blank and the theirs side's security score exceeds the ours side's by
more than 1, theirs-text is returned; both arms of the inner error-handling
check return the theirs side, so this holds in particular when ours-text's
error-handling count exceeds theirs-text's by more than 2 (see the witness). -/
theorem C4_theorem (h b : List Char) (h1 : strip h ≠ []) (h2 : strip b ≠ [])
    (h3 : (analyzeSide b).security + (analyzeSide b).bounds >
      (analyzeSide h).security + (analyzeSide h).bounds + 1) :
    resolveConflictSmart h b = b := by
  simp [resolveConflictSmart, h1, h2, h3]

/-- C4, witness at a pair where the theirs side wins on security score while
the ours side holds an error-handling advantage of more than 2. -/
theorem C4_witness :
    strip c4H ≠ [] ∧ strip c4B ≠ [] ∧
      (analyzeSide c4B).security + (analyzeSide c4B).bounds >
        (analyzeSide c4H).security + (analyzeSide c4H).bounds + 1 ∧
      (analyzeSide c4H).errh > (analyzeSide c4B).errh + 2 ∧
      resolveConflictSmart c4H c4B = c4B :=
  ⟨by decide, by decide, by decide, by decide,
    C4_theorem c4H c4B (by decide) (by decide) (by decide)⟩

/-- C5, amended.  Only the fix_preexisting and resolve_09 drivers strip a
malformed separator-less region down to its interior; on Scenario C they
produce `keep me\n`, while the resolve_smart driver, which has no malformed
fallback, leaves the text unchanged and reports it unresolved. -/
theorem C5_theorem :
    fixFileRun sc5 = (keepMe, true) ∧ r09FileRun sc5 = (keepMe, true) ∧
      resolveFileSmartRun sc5 = (sc5, false) := by decide

/-- C5, counterexample.  The resolve_smart driver does not resolve the
Scenario C malformed region to `keep me\n`. -/
theorem C5_counterexample : ¬ ((resolveFileSmartRun sc5).1 = keepMe) := by decide

/-- Boolean list membership agrees with propositional membership. -/
theorem contains_iff_mem (l : List (List Char)) (x : List Char) :
    l.contains x = true ↔ x ∈ l := by
  simp [List.contains, List.elem_iff]

/-- Negated form of `contains_iff_mem`. -/
theorem contains_eq_false (l : List (List Char)) (x : List Char) :
    l.contains x = false ↔ ¬ x ∈ l := by
  rw [← contains_iff_mem]
  cases l.contains x <;> simp

/-- Membership in the trimmed inserted-fields list: exactly the trimmed
branch fields absent from the trimmed HEAD fields. -/
theorem mem_newFields_strips (h b x : List Char) :
    x ∈ (newFields h b).map strip ↔
      x ∈ (extractFullFields b).map strip ∧ ¬ x ∈ (extractFullFields h).map strip := by
  simp only [newFields, List.mem_map, List.mem_filter, Bool.not_eq_true', contains_eq_false]
  constructor
  · rintro ⟨f, ⟨hf, hp⟩, rfl⟩
    exact ⟨⟨f, hf, rfl⟩, hp⟩
  · rintro ⟨⟨f, hf, rfl⟩, hp⟩
    exact ⟨f, ⟨hf, hp⟩, rfl⟩

/-- C6, amended.  The fields placed on the merged line are ours-text's fields
followed by the inserted new fields; when each side's own field list is
duplicate-free by trimmed text, that combined list is duplicate-free and its
trimmed members are exactly the union of the two sides' trimmed field sets.
Scenario B holds verbatim. -/
theorem C6_theorem :
    (∀ h b, ((extractFullFields h).map strip).Nodup →
      ((extractFullFields b).map strip).Nodup →
      (((extractFullFields h).map strip ++ (newFields h b).map strip).Nodup ∧
        ∀ x, x ∈ (extractFullFields h).map strip ++ (newFields h b).map strip ↔
          (x ∈ (extractFullFields h).map strip ∨ x ∈ (extractFullFields b).map strip))) ∧
      mergeLogLine scenBH scenBB = scenBM := by
  constructor
  · intro h b hn bn
    constructor
    · refine hn.append ?_ ?_
      · exact bn.sublist ((List.filter_sublist _).map strip)
      · intro a ha hb
        exact ((mem_newFields_strips h b a).1 hb).2 ha
    · intro x
      rw [List.mem_append, mem_newFields_strips]
      constructor
      · rintro (hx | ⟨hx, _⟩)
        · exact Or.inl hx
        · exact Or.inr hx
      · rintro (hx | hx)
        · exact Or.inl hx
        · by_cases hmem : x ∈ (extractFullFields h).map strip
          · exact Or.inl hmem
          · exact Or.inr ⟨hx, hmem⟩
  · decide

/-- C6, witness: on the Scenario B pair both sides are duplicate-free and the
merged field list is duplicate-free. -/
theorem C6_witness :
    ((extractFullFields scenBH).map strip).Nodup ∧
      ((extractFullFields scenBB).map strip).Nodup ∧
      ((extractFullFields scenBH).map strip ++ (newFields scenBH scenBB).map strip).Nodup :=
  ⟨by decide, by decide, (C6_theorem.1 scenBH scenBB (by decide) (by decide)).1⟩

/-- C6, counterexample.  A branch side listing the same field twice makes the
merged line carry that field twice, so the merged field list (by trimmed
text) is not duplicate-free. -/
theorem C6_counterexample :
    ¬ ((extractFullFields (mergeLogLine dupH dupB)).map strip).Nodup := by decide

/-- C7, amended.  In the no-new-fields path ours-text's message is kept
whenever the two messages are not case-insensitively equal; but in the
new-fields path ours-text's message is replaced by theirs-text's message
whenever both are present, with no case-insensitive equality check (second
conjunct: `start` is replaced by the unrelated `Stopping now`). -/
theorem C7_theorem :
    (∀ h b bm hm, newFields h b = [] → getMsg b = some bm → getMsg h = some hm →
      lowerL bm ≠ lowerL hm → mergeLogLine h b = h) ∧
      mergeLogLine c7H2 c7B2 =
        String.toList "log.Warn().Int(\"n\",3).Msg(\"Stopping now\")" := by
  constructor
  · intro h b bm hm h1 h2 h3 h4
    simp [mergeLogLine, h1, h2, h3, h4]
  · decide

/-- C7, witness: with no new fields and case-insensitively different
messages, the merge keeps ours-text unchanged. -/
theorem C7_witness :
    newFields c7WH c7WB = [] ∧ getMsg c7WB = some (String.toList "y") ∧
      getMsg c7WH = some (String.toList "x") ∧
      lowerL (String.toList "y") ≠ lowerL (String.toList "x") ∧
      mergeLogLine c7WH c7WB = c7WH :=
  ⟨by decide, by decide, by decide, by decide,
    C7_theorem.1 c7WH c7WB (String.toList "y") (String.toList "x")
      (by decide) (by decide) (by decide) (by decide)⟩

/-- C7, counterexample.  With a new field inserted, ours-text's message
`alpha` is replaced by theirs-text's `beta` although the two are not
case-insensitively equal, contradicting the claim that it would be kept. -/
theorem C7_counterexample :
    lowerL (String.toList "beta") ≠ lowerL (String.toList "alpha") ∧
      getMsg c7B = some (String.toList "beta") ∧
      getMsg c7H = some (String.toList "alpha") ∧
      getMsg (mergeLogLine c7H c7B) = some (String.toList "beta") := by decide

/-- C8, amended.  The fix_preexisting batch runner skips a missing path and
continues with the remaining paths exactly as if the path were absent from
the batch; the resolve_smart runner instead has no existence check and a
missing path aborts the batch (see the counterexample). -/
theorem C8_theorem (fs : String → Option (List Char)) (p : String) (rest : List String)
    (h : fs p = none) : fixBatch fs (p :: rest) = fixBatch fs rest := by
  simp [fixBatch, h]

/-- C8, witness: the empty filesystem makes the first path missing and the
batch result equals the batch over the remaining (empty) list. -/
theorem C8_witness :
    emptyFs "pkg/a.go" = none ∧ fixBatch emptyFs ["pkg/a.go"] = fixBatch emptyFs [] :=
  ⟨rfl, C8_theorem emptyFs "pkg/a.go" [] rfl⟩

/-- C8, counterexample.  The resolve_smart batch runner aborts with an
unhandled error on a missing path instead of skipping it. -/
theorem C8_counterexample :
    smartBatch emptyFs ["missing.go"] = Except.error "missing.go" := rfl

/-- C9, amended.  Opening and closing marker lines must carry a space after
the 7-character sentinel (the label itself may be empty); such regions are
extracted and resolved by all three drivers.  resolve_smart additionally
requires the separator line to be exactly the bare sentinel, while
fix_preexisting accepts trailing text on it.  Bare opening or closing
sentinel lines without the space are not recognized (see the
counterexample). -/
theorem C9_theorem :
    resolveFileSmartRun t9spaced = (String.toList "theirs\n", true) ∧
      fixFileRun t9spaced = (String.toList "theirs\n", true) ∧
      r09FileRun t9spaced = (String.toList "ours\n", true) ∧
      resolveFileSmartRun t9labeled = (String.toList "theirs\n", true) ∧
      stepSmart t9sepLabel = t9sepLabel ∧
      fixFileRun t9sepLabel = (String.toList "b\n", true) := by decide

/-- C9, counterexample.  A region whose sentinel lines are the bare
7-character sentinels with no trailing space is not matched: every driver
pass leaves it unchanged and it stays unresolved. -/
theorem C9_counterexample :
    stepSmart t9bare = t9bare ∧ stepFix t9bare = t9bare ∧ step09 t9bare = t9bare ∧
      fixFileRun t9bare = (t9bare, false) := by decide

/-- Newline-freedom passes to any drop. -/
theorem hasNl_drop (l : List Char) (n : Nat) (h : hasNl l = false) :
    hasNl (l.drop n) = false := by
  induction l generalizing n with
  | nil => simp [List.drop_nil, hasNl]
  | cons c tl ih =>
    cases n with
    | zero => exact h
    | succ m =>
      rw [List.drop_succ_cons]
      simp only [hasNl, Bool.or_eq_false_iff] at h
      exact ih m h.2

/-- Without a newline, the line-skipping fragment fails. -/
theorem afterLine_none (l : List Char) (h : hasNl l = false) : afterLine l = none := by
  induction l with
  | nil => rfl
  | cons c tl ih =>
    simp only [hasNl, Bool.or_eq_false_iff, beq_eq_false_iff_ne] at h
    rw [afterLine, if_neg h.1]
    exact ih h.2

/-- The line-skipping fragment returns a suffix of its input. -/
theorem afterLine_suffix (l : List Char) : ∀ r, afterLine l = some r → r <:+ l := by
  induction l with
  | nil => intro r h; exact absurd h (by simp [afterLine])
  | cons c tl ih =>
    intro r h
    rw [afterLine] at h
    by_cases hc : c = '\n'
    · rw [if_pos hc] at h
      cases h
      exact List.suffix_cons c tl
    · rw [if_neg hc] at h
      exact (ih r h).trans (List.suffix_cons c tl)

/-- The tail of a text with no live closing sentinel also has none. -/
theorem noLiveClose_tail (c : Char) (tl : List Char) (h : noLiveClose (c :: tl) = true) :
    noLiveClose tl = true := by
  simp only [noLiveClose, Bool.and_eq_true] at h
  exact h.2

/-- Any suffix of a text with no live closing sentinel has none. -/
theorem noLiveClose_suffix (l : List Char) : ∀ r, r <:+ l → noLiveClose l = true →
    noLiveClose r = true := by
  induction l with
  | nil =>
    intro r hr _
    rw [List.suffix_nil.mp hr]
    rfl
  | cons c tl ih =>
    intro r hr hn
    rcases List.suffix_cons_iff.mp hr with h | h
    · rw [h]; exact hn
    · exact ih r h (noLiveClose_tail c tl hn)

/-- Where the closing sentinel starts in such a text, no newline follows. -/
theorem noLiveClose_head (l : List Char) (hn : noLiveClose l = true)
    (hp : closeSent.isPrefixOf l = true) : hasNl l = false := by
  cases l with
  | nil => rfl
  | cons c tl =>
    simp only [noLiveClose, Bool.and_eq_true, Bool.or_eq_true, Bool.not_eq_true'] at hn
    rcases hn.1 with h | h
    · rw [hp] at h; exact absurd h (by simp)
    · exact h

/-- A prefix through the closing sentinel and space yields the sentinel
prefix alone. -/
theorem closeSent_isPrefixOf (l : List Char)
    (hp : (closeSent ++ [' ']).isPrefixOf l = true) : closeSent.isPrefixOf l = true := by
  rw [List.isPrefixOf_iff_prefix] at hp ⊢
  exact (List.prefix_append closeSent [' ']).trans hp

/-- No closing marker line can match in a text with no live closing sentinel. -/
theorem parseClose_none (l : List Char) (hn : noLiveClose l = true) : parseClose l = none := by
  rw [parseClose]
  by_cases hp : (closeSent ++ [' ']).isPrefixOf l = true
  · rw [if_pos hp]
    exact afterLine_none _ (hasNl_drop l 8 (noLiveClose_head l hn (closeSent_isPrefixOf l hp)))
  · rw [if_neg hp]

/-- The lazy group-2 interior can never complete in such a text. -/
theorem parseB_none (l : List Char) (hn : noLiveClose l = true) : parseB l = none := by
  induction l with
  | nil => rfl
  | cons c tl ih =>
    rw [parseB, parseClose_none _ hn]
    simp [ih (noLiveClose_tail c tl hn)]

/-- Nor can the malformed-pattern interior. -/
theorem parseM_none (l : List Char) (hn : noLiveClose l = true) : parseM l = none := by
  induction l with
  | nil => rfl
  | cons c tl ih =>
    rw [parseM, parseClose_none _ hn]
    simp [ih (noLiveClose_tail c tl hn)]

/-- The bare separator parser returns a suffix of its input. -/
theorem parseSepExact_suffix : ∀ l r, parseSepExact l = some r → r <:+ l := by
  intro l r h
  rw [parseSepExact] at h
  by_cases hp : sepSent.isPrefixOf l = true
  · rw [if_pos hp] at h
    cases hd : l.drop 7 with
    | nil => rw [hd] at h; exact absurd h (by simp)
    | cons c tl =>
      rw [hd] at h
      dsimp only at h
      by_cases hc : c = '\n'
      · rw [if_pos hc] at h
        injection h with h2
        subst h2
        exact (List.suffix_cons c tl).trans (hd ▸ List.drop_suffix 7 l)
      · rw [if_neg hc] at h
        exact absurd h (by simp)
  · rw [if_neg hp] at h
    exact absurd h (by simp)

/-- The labelled separator parser returns a suffix of its input. -/
theorem parseSepLine_suffix : ∀ l r, parseSepLine l = some r → r <:+ l := by
  intro l r h
  rw [parseSepLine] at h
  by_cases hp : sepSent.isPrefixOf l = true
  · rw [if_pos hp] at h
    exact (afterLine_suffix _ r h).trans (List.drop_suffix 7 l)
  · rw [if_neg hp] at h
    exact absurd h (by simp)

/-- The opening-line parser returns a suffix of its input. -/
theorem parseOpen_suffix (l r : List Char) (h : parseOpen l = some r) : r <:+ l := by
  rw [parseOpen] at h
  by_cases hp : (openSent ++ [' ']).isPrefixOf l = true
  · rw [if_pos hp] at h
    exact (afterLine_suffix _ r h).trans (List.drop_suffix 8 l)
  · rw [if_neg hp] at h
    exact absurd h (by simp)

/-- The lazy group-1 interior can never complete in such a text, for any
separator parser returning suffixes. -/
theorem parseA_none (sep : List Char → Option (List Char))
    (hsep : ∀ l r, sep l = some r → r <:+ l) (l : List Char)
    (hn : noLiveClose l = true) : parseA sep l = none := by
  induction l with
  | nil => rfl
  | cons c tl ih =>
    rw [parseA]
    cases hs : sep (c :: tl) with
    | some afterSep =>
      simp [parseB_none afterSep (noLiveClose_suffix (c :: tl) afterSep (hsep _ _ hs) hn)]
    | none =>
      simp [ih (noLiveClose_tail c tl hn)]

/-- The well-formed conflict pattern never matches in such a text. -/
theorem tryConflict_none (sep : List Char → Option (List Char))
    (hsep : ∀ l r, sep l = some r → r <:+ l) (l : List Char)
    (hn : noLiveClose l = true) : tryConflict sep l = none := by
  rw [tryConflict]
  cases ho : parseOpen l with
  | some afterOpen =>
    exact parseA_none sep hsep afterOpen
      (noLiveClose_suffix l afterOpen (parseOpen_suffix l afterOpen ho) hn)
  | none => rfl

/-- The malformed pattern never matches in such a text. -/
theorem tryMalformed_none (l : List Char) (hn : noLiveClose l = true) :
    tryMalformed l = none := by
  rw [tryMalformed]
  cases ho : parseOpen l with
  | some afterOpen =>
    exact parseM_none afterOpen
      (noLiveClose_suffix l afterOpen (parseOpen_suffix l afterOpen ho) hn)
  | none => rfl

/-- A conflict-pattern pass leaves such a text unchanged. -/
theorem scanConflicts_id (sep : List Char → Option (List Char))
    (hsep : ∀ l r, sep l = some r → r <:+ l)
    (res : List Char → List Char → List Char) :
    ∀ fuel l, noLiveClose l = true → scanConflicts sep res fuel l = l := by
  intro fuel
  induction fuel with
  | zero => intro l _; rfl
  | succ f ih =>
    intro l hn
    cases l with
    | nil => rfl
    | cons c tl =>
      rw [scanConflicts, tryConflict_none sep hsep _ hn]
      simp [ih tl (noLiveClose_tail c tl hn)]

/-- A malformed-pattern pass leaves such a text unchanged. -/
theorem scanMalformed_id : ∀ fuel l, noLiveClose l = true → scanMalformed fuel l = l := by
  intro fuel
  induction fuel with
  | zero => intro l _; rfl
  | succ f ih =>
    intro l hn
    cases l with
    | nil => rfl
    | cons c tl =>
      rw [scanMalformed, tryMalformed_none _ hn]
      simp [ih tl (noLiveClose_tail c tl hn)]

/-- C10, confirmed.  In a file whose every closing sentinel sits on an
unterminated final line (the shape of a conflict region whose closing marker
line is the last line with no trailing newline) and which contains at least
one opening sentinel, neither the well-formed nor the malformed pattern
matches: every driver leaves the text unchanged and reports it unresolved. -/
theorem C10_theorem (t : List Char) (hn : noLiveClose t = true) (hc : 0 < countOpen t) :
    stepSmart t = t ∧ stepFix t = t ∧ step09 t = t ∧
      resolveFileSmartRun t = (t, false) ∧ fixFileRun t = (t, false) ∧
      r09FileRun t = (t, false) := by
  have hsm : stepSmart t = t :=
    scanConflicts_id parseSepExact parseSepExact_suffix resolveConflictSmart t.length t hn
  have hsf0 : subFix t = t :=
    scanConflicts_id parseSepLine parseSepLine_suffix pickBranch t.length t hn
  have h090 : sub09 t = t :=
    scanConflicts_id parseSepLine parseSepLine_suffix resolve09Conflict t.length t hn
  have hml : subMal t = t := scanMalformed_id t.length t hn
  have hsf : stepFix t = t := by simp [stepFix, hsf0, hml]
  have h09 : step09 t = t := by simp [step09, h090, hml]
  have hbe : (countOpen t == 0) = false :=
    beq_eq_false_iff_ne.mpr (Nat.pos_iff_ne_zero.mp hc)
  have hlsm : loopWith stepSmart 50 t = (t, 1) := loopWith_fix stepSmart 49 t hsm
  have hlsf : loopWith stepFix 50 t = (t, 1) := loopWith_fix stepFix 49 t hsf
  have hl09 : loopWith step09 50 t = (t, 1) := loopWith_fix step09 49 t h09
  refine ⟨hsm, hsf, h09, ?_, ?_, ?_⟩
  · simp [resolveFileSmartRun, hlsm, hbe]
  · simp [fixFileRun, hbe, hlsf]
  · simp [r09FileRun, hl09, hbe]

/-- C10, witness at a file whose conflict region's closing line is the
unterminated last line. -/
theorem C10_witness :
    noLiveClose t10eof = true ∧ 0 < countOpen t10eof ∧
      fixFileRun t10eof = (t10eof, false) :=
  ⟨by decide, by decide, (C10_theorem t10eof (by decide) (by decide)).2.2.2.2.1⟩

end Pulse
